import Mathlib

/-!
# Verification of the edge-tts browser streaming client

A shallow embedding, in Lean 4, of the protocol client and playback pipeline
of the edge-tts-extension repository (file src/utils/browserCommunicate.ts and
the shared TTS player in utils/ttsPlayer.ts), together with theorems settling
the frozen specification claims.

Conventions of the embedding:
* byte sequences are modelled as List Nat (each element intended < 256);
* JavaScript strings are modelled as Lean String / List Char.  JS strings are
  sequences of UTF-16 code units; the two models coincide on strings without
  astral (non-BMP) characters, which covers every input used by the theorems;
* TextDecoder.decode is modelled by utf8Decode, the WHATWG UTF-8 decoder with
  U+FFFD replacement of invalid sequences; TextEncoder.encode by utf8Encode;
* asynchronous callbacks are modelled by explicit state passing: the inbound
  message queue of the stream generator becomes an explicit list of queue
  items, and the drain loop a recursive function over that list.
-/

/-! ## Byte-level text codec (TextEncoder / TextDecoder) -/

/-- The Unicode replacement character U+FFFD emitted by TextDecoder for
invalid UTF-8 input. -/
def replacementChar : Char := Char.ofNat 0xFFFD

/-- WHATWG UTF-8 decoding (the behaviour of TextDecoder.decode with the
default non-fatal mode): well-formed sequences decode to their scalar value,
invalid bytes are replaced by U+FFFD, and a byte that fails a continuation
check is reprocessed as a fresh lead byte. -/
def utf8Decode : List Nat → List Char
  | [] => []
  | b :: rest =>
    if b < 0x80 then
      Char.ofNat b :: utf8Decode rest
    else if 0xC2 ≤ b ∧ b ≤ 0xDF then
      match rest with
      | [] => [replacementChar]
      | c1 :: rest1 =>
        if 0x80 ≤ c1 ∧ c1 ≤ 0xBF then
          Char.ofNat ((b - 0xC0) * 64 + (c1 - 0x80)) :: utf8Decode rest1
        else
          -- the failing byte is reprocessed as a fresh lead byte
          replacementChar :: utf8Decode (c1 :: rest1)
    else if 0xE0 ≤ b ∧ b ≤ 0xEF then
      -- three-byte lead; the first continuation range depends on the lead
      let lo1 := if b = 0xE0 then 0xA0 else 0x80
      let hi1 := if b = 0xED then 0x9F else 0xBF
      match rest with
      | [] => [replacementChar]
      | c1 :: rest1 =>
        if lo1 ≤ c1 ∧ c1 ≤ hi1 then
          match rest1 with
          | [] => [replacementChar]
          | c2 :: rest2 =>
            if 0x80 ≤ c2 ∧ c2 ≤ 0xBF then
              Char.ofNat ((b - 0xE0) * 4096 + (c1 - 0x80) * 64 + (c2 - 0x80)) ::
                utf8Decode rest2
            else
              replacementChar :: utf8Decode (c2 :: rest2)
        else
          replacementChar :: utf8Decode (c1 :: rest1)
    else if 0xF0 ≤ b ∧ b ≤ 0xF4 then
      -- four-byte lead; the first continuation range depends on the lead
      let lo1 := if b = 0xF0 then 0x90 else 0x80
      let hi1 := if b = 0xF4 then 0x8F else 0xBF
      match rest with
      | [] => [replacementChar]
      | c1 :: rest1 =>
        if lo1 ≤ c1 ∧ c1 ≤ hi1 then
          match rest1 with
          | [] => [replacementChar]
          | c2 :: rest2 =>
            if 0x80 ≤ c2 ∧ c2 ≤ 0xBF then
              match rest2 with
              | [] => [replacementChar]
              | c3 :: rest3 =>
                if 0x80 ≤ c3 ∧ c3 ≤ 0xBF then
                  Char.ofNat ((b - 0xF0) * 262144 + (c1 - 0x80) * 4096 +
                      (c2 - 0x80) * 64 + (c3 - 0x80)) :: utf8Decode rest3
                else
                  replacementChar :: utf8Decode (c3 :: rest3)
            else
              replacementChar :: utf8Decode (c2 :: rest2)
        else
          replacementChar :: utf8Decode (c1 :: rest1)
    else
      -- 0x80..0xC1 and 0xF5..0xFF are never valid lead bytes
      replacementChar :: utf8Decode rest

/-- UTF-8 encoding of a single scalar value (TextEncoder behaviour per
character). -/
def utf8EncodeChar (c : Char) : List Nat :=
  let n := c.toNat
  if n < 0x80 then [n]
  else if n < 0x800 then [0xC0 + n / 64, 0x80 + n % 64]
  else if n < 0x10000 then
    [0xE0 + n / 4096, 0x80 + (n / 64) % 64, 0x80 + n % 64]
  else
    [0xF0 + n / 262144, 0x80 + (n / 4096) % 64, 0x80 + (n / 64) % 64,
     0x80 + n % 64]

/-- TextEncoder.encode on a string modelled as a character list. -/
def utf8Encode (s : List Char) : List Nat :=
  (s.map utf8EncodeChar).flatten

/-- Except carries no DecidableEq instance in this library version; the
concrete frame-decoder evaluations below need one. -/
instance {ε α : Type} [DecidableEq ε] [DecidableEq α] :
    DecidableEq (Except ε α) := fun a b =>
  match a, b with
  | .ok x, .ok y =>
    if h : x = y then .isTrue (congrArg Except.ok h)
    else .isFalse (fun hc => h (Except.ok.inj hc))
  | .error e, .error f =>
    if h : e = f then .isTrue (congrArg Except.error h)
    else .isFalse (fun hc => h (Except.error.inj hc))
  | .ok _, .error _ => .isFalse (fun hc => Except.noConfusion hc)
  | .error _, .ok _ => .isFalse (fun hc => Except.noConfusion hc)

/-! ## JavaScript string helpers used by the source -/

/-- The WhiteSpace / LineTerminator set of String.prototype.trim (restricted
to the characters that can actually appear here; all ASCII whitespace plus
NBSP and the BOM). -/
def jsWhitespace (c : Char) : Bool :=
  c = ' ' || c = '\t' || c = '\n' || c = '\r' ||
  c = Char.ofNat 0x0B || c = Char.ofNat 0x0C ||
  c = Char.ofNat 0xA0 || c = Char.ofNat 0xFEFF

/-- String.prototype.trim on a character list. -/
def jsTrim (s : List Char) : List Char :=
  ((s.dropWhile jsWhitespace).reverse.dropWhile jsWhitespace).reverse

/-- JS String.prototype.startsWith (literal prefix), defined structurally
so that it evaluates by kernel reduction. -/
def jsStartsWith (s pre : String) : Bool :=
  pre.toList.isPrefixOf s.toList

/-- String.prototype.lastIndexOf for a single character: the index of the
last occurrence, or -1 when absent. -/
def jsLastIndexOf (s : List Char) (c : Char) : Int :=
  match s.reverse.findIdx? (· = c) with
  | none => -1
  | some j => (s.length : Int) - 1 - (j : Int)

/-! ## Header parsing (shared by the text and binary frame decoders) -/

/-- JS String.prototype.split with a single-character separator. -/
def splitOnChar (sep : Char) : List Char → List (List Char)
  | [] => [[]]
  | c :: rest =>
    if c = sep then [] :: splitOnChar sep rest
    else
      match splitOnChar sep rest with
      | [] => [[c]]
      | l :: ls => (c :: l) :: ls

/-- JS String.prototype.split with the two-character separator CR LF. -/
def splitCRLF : List Char → List (List Char)
  | [] => [[]]
  | '\r' :: '\n' :: rest => [] :: splitCRLF rest
  | c :: rest =>
    match splitCRLF rest with
    | [] => [[c]]
    | l :: ls => (c :: l) :: ls

/-- One header line: the source splits on colons keeping the first two
fields (split with limit 2), keeps the pair only when both key and value are
non-empty (JS truthiness), and trims the value. -/
def parseHeaderLine (line : List Char) : Option (String × String) :=
  match splitOnChar ':' line with
  | key :: value :: _ =>
    if key = [] ∨ value = [] then none
    else some (String.mk key, String.mk (jsTrim value))
  | _ => none

/-- Parse a CRLF-separated header block into an ordered association list
(later duplicates override earlier ones at lookup time, matching JS object
assignment). -/
def parseHeaderLines (s : List Char) : List (String × String) :=
  (splitCRLF s).filterMap parseHeaderLine

/-- Look up a header: the last assignment wins, as in a JS object. -/
def getHeader (headers : List (String × String)) (key : String) :
    Option String :=
  ((headers.filter (fun p => p.1 = key)).reverse.head?).map (fun p => p.2)

/-! ## Binary frame decoding (browserGetHeadersAndDataFromBinary) -/

/-- Core of the binary decoder, on a frame that passed the two-byte length
check: headerLength is the big-endian 16-bit prefix; the header block is
parsed only when 0 < headerLength and headerLength + 2 does not exceed the
frame length, otherwise the headers come out empty; the payload is
everything after the declared header block. -/
def decodeBinaryFrame (b0 b1 : Nat) (rest : List Nat) :
    List (String × String) × List Nat :=
  -- (message[0] << 8) | message[1]: for bytes b0, b1 < 256 the bitwise
  -- expression equals b0 * 256 + b1
  let headerLength := b0 * 256 + b1
  let headers :=
    if 0 < headerLength ∧ headerLength + 2 ≤ rest.length + 2 then
      parseHeaderLines (utf8Decode (rest.take headerLength))
    else []
  (headers, rest.drop headerLength)

/-- browserGetHeadersAndDataFromBinary: fails only when the message has
fewer than 2 bytes. -/
def browserGetHeadersAndDataFromBinary (message : List Nat) :
    Except String (List (String × String) × List Nat) :=
  match message with
  | b0 :: b1 :: rest => .ok (decodeBinaryFrame b0 b1 rest)
  | _ => .error "Message too short to contain header length"

example :
    browserGetHeadersAndDataFromBinary [0, 5, 97, 98] = .ok ([], []) := by
  decide

example :
    browserGetHeadersAndDataFromBinary
      ([0, 10] ++ utf8Encode "Path:audio".toList ++ [1, 2, 3]) =
      .ok ([("Path", "audio")], [1, 2, 3]) := by
  decide

/-! ## Text segmentation (browserSplitTextByByteLength) -/

/-- The split position computed by one iteration of the segmentation loop:
decode the first byteLength bytes, look for the last newline (else the last
space) at a positive index, and split at the encoded length of the text
before it; otherwise split exactly at the byte budget.  JS substring indices
are code-unit positions; on BMP text they coincide with the character
positions used here. -/
def splitTextChunk (byteLength : Nat) (buffer : List Nat) : Nat :=
  let slice := buffer.take byteLength
  let sliceText := utf8Decode slice
  let lastNewline := jsLastIndexOf sliceText '\n'
  let lastSpace := jsLastIndexOf sliceText ' '
  if lastNewline > 0 then
    (utf8Encode (sliceText.take lastNewline.toNat)).length
  else if lastSpace > 0 then
    (utf8Encode (sliceText.take lastSpace.toNat)).length
  else byteLength

/-- The while loop of browserSplitTextByByteLength, written with explicit
fuel so that it evaluates by kernel reduction.  Every iteration removes at
least one byte from the buffer (the split position is always positive), so
any fuel larger than the buffer length reaches the terminal branch; the
fuel-exhaustion answer [] is never returned from the wrapper below. -/
def splitLoop (byteLength : Nat) : Nat → List Nat → List (List Nat)
  | 0, _ => []
  | fuel + 1, buffer =>
    if byteLength < buffer.length then
      -- one iteration: chunk = buffer.slice(0, splitAt), trimmed and
      -- yielded only when non-empty; the loop continues on the remainder
      if (jsTrim (utf8Decode
            (buffer.take (splitTextChunk byteLength buffer)))).isEmpty then
        splitLoop byteLength fuel
          (buffer.drop (splitTextChunk byteLength buffer))
      else
        utf8Encode (jsTrim (utf8Decode
            (buffer.take (splitTextChunk byteLength buffer)))) ::
          splitLoop byteLength fuel
            (buffer.drop (splitTextChunk byteLength buffer))
    else
      -- past the loop: the remaining buffer is trimmed and yielded when
      -- non-empty
      if (jsTrim (utf8Decode buffer)).isEmpty then []
      else [utf8Encode (jsTrim (utf8Decode buffer))]

/-- browserSplitTextByByteLength: encode the text, fail on a non-positive
byte budget (the budget is a count, modelled as Nat, so non-positive means
zero), then run the splitting loop to completion. -/
def browserSplitTextByByteLength (text : List Char) (byteLength : Nat) :
    Except String (List (List Nat)) :=
  if byteLength = 0 then .error "byteLength must be greater than 0"
  else
    .ok (splitLoop byteLength ((utf8Encode text).length + 1) (utf8Encode text))

/-! ## Protocol events, errors, and session state -/

/-- The error values surfaced by the client (utils/exceptions plus the plain
Error thrown for a repeated stream call).  The spec names MalformedFrame and
ProtocolMisuse for the UnexpectedResponse raised on a short frame and the
plain once-only Error, respectively. -/
inductive TTSError where
  | noAudioReceived (msg : String)
  | unexpectedResponse (msg : String)
  | unknownResponse (msg : String)
  | webSocketError (msg : String)
  | plainError (msg : String)
deriving DecidableEq, Repr

/-- BrowserTTSChunk: the events yielded to the consumer.  The text carried
by a WordBoundary is kept verbatim: the XML unescaping applied by the source
(utils/newUtils.unescape, outside the claims) does not affect any claim. -/
inductive BrowserTTSChunk where
  | audio (data : List Nat)
  | wordBoundary (offset duration : Int) (text : String)
deriving DecidableEq, Repr

/-- An entry of the Metadata array of an audio.metadata frame, after JSON
parsing: its Type tag and, for WordBoundary, the numeric Data fields. -/
inductive MetadataEntry where
  | wordBoundary (offset duration : Int) (text : String)
  | sessionEnd
  | other (type : String)
deriving DecidableEq, Repr

/-- parseMetadata: scan the Metadata array; the first WordBoundary entry
yields a chunk whose offset is the raw offset plus the current offset
compensation; SessionEnd entries are skipped; any other type raises
UnknownResponse; exhausting the array raises UnexpectedResponse. -/
def parseMetadata (offsetCompensation : Int) :
    List MetadataEntry → Except TTSError BrowserTTSChunk
  | [] => .error (.unexpectedResponse "No WordBoundary metadata found")
  | .wordBoundary off dur text :: _ =>
      .ok (.wordBoundary (off + offsetCompensation) dur text)
  | .sessionEnd :: rest => parseMetadata offsetCompensation rest
  | .other t :: _ => .error (.unknownResponse ("Unknown metadata type: " ++ t))

/-- The mutable offset-accounting state of one BrowserCommunicate instance
(fields partialText and streamWasCalled are modelled where used). -/
structure CommState where
  offsetCompensation : Int
  lastDurationOffset : Int
deriving DecidableEq, Repr

/-- The initial state of a fresh instance. -/
def initCommState : CommState := { offsetCompensation := 0, lastDurationOffset := 0 }

/-- The state-relevant inbound text messages of one connection: a
successfully parsed WordBoundary metadata frame (carrying its raw JSON
Offset and Duration), a turn.end frame, or any message that leaves the
offset state untouched (audio frames, response, turn.start). -/
inductive TurnEvent where
  | metadata (offset duration : Int)
  | turnEnd
  | other
deriving DecidableEq, Repr

/-- How the onmessage handler updates the offset state:
on audio.metadata, lastDurationOffset becomes parsed offset + duration,
where the parsed offset is the raw offset plus offsetCompensation
(parseMetadata); on turn.end, offsetCompensation is assigned (not added)
the value of lastDurationOffset. -/
def stepTurn (st : CommState) : TurnEvent → CommState
  | .metadata off dur =>
      { st with lastDurationOffset := (off + st.offsetCompensation) + dur }
  | .turnEnd => { st with offsetCompensation := st.lastDurationOffset }
  | .other => st

/-- The offset state after handling a sequence of inbound messages. -/
def runTurns (st : CommState) (es : List TurnEvent) : CommState :=
  es.foldl stepTurn st

/-- The lastDurationOffset values observed at each turn.end of an event
sequence (the values the spec says offsetCompensation accumulates). -/
def turnEndContributions (st : CommState) : List TurnEvent → List Int
  | [] => []
  | e :: es =>
    match e with
    | .turnEnd => st.lastDurationOffset :: turnEndContributions (stepTurn st e) es
    | _ => turnEndContributions (stepTurn st e) es

/-- A metadata event carrying the non-negative Offset and Duration the
service guarantees; other events are unconditionally valid. -/
def validTurnEvent : TurnEvent → Prop
  | .metadata off dur => 0 ≤ off ∧ 0 ≤ dur
  | _ => True

instance (e : TurnEvent) : Decidable (validTurnEvent e) := by
  cases e <;> simp [validTurnEvent] <;> infer_instance

/-! ## The inbound message queue and its drain loop -/

/-- The items pushed onto the internal message queue of the stream body: a
chunk to yield, an error to rethrow, or the close marker. -/
inductive QueueItem where
  | chunk (c : BrowserTTSChunk)
  | err (e : TTSError)
  | close
deriving DecidableEq, Repr

/-- Does the stream body count this chunk as received audio? -/
def isAudioChunk : BrowserTTSChunk → Bool
  | .audio _ => true
  | _ => false

/-- Does a metadata entry carry the WordBoundary type tag? -/
def isWordBoundaryEntry : MetadataEntry → Bool
  | .wordBoundary _ _ _ => true
  | _ => false

/-- The audio-validation step of the binary branch of onmessage, entered
once the Path header equals audio: coalesce a missing Content-Type to the
empty string; accept audio/mpeg exactly or an audio/webm prefix; when the
Content-Type is non-empty and invalid, push UnexpectedResponse only for a
non-empty payload; drop empty payloads silently; otherwise push the audio
chunk.  Returns the queue item pushed, or none when the frame is dropped. -/
def validateAudioPayload (headers : List (String × String))
    (audioData : List Nat) : Option QueueItem :=
  let contentType := (getHeader headers "Content-Type").getD ""
  let isValidAudio := contentType = "audio/mpeg" ||
    jsStartsWith contentType "audio/webm" || contentType = "audio/webm"
  if !isValidAudio && !(contentType = "") then
    if 0 < audioData.length then
      some (.err (.unexpectedResponse
        ("Received binary message with unexpected Content-Type: " ++ contentType)))
    else none
  else if audioData.length = 0 then none
  else some (.chunk (.audio audioData))

/-- The whole binary branch of onmessage: reject frames shorter than two
bytes, decode the frame, reject a Path other than audio, then validate the
payload.  Returns the queue item pushed, or none when the frame is dropped. -/
def handleBinaryMessage (bufferData : List Nat) : Option QueueItem :=
  match bufferData with
  | b0 :: b1 :: rest =>
    let (headers, audioData) := decodeBinaryFrame b0 b1 rest
    if !(getHeader headers "Path" = some "audio") then
      some (.err (.unexpectedResponse
        "Received binary message, but the path is not audio."))
    else
      validateAudioPayload headers audioData
  | _ =>
    some (.err (.unexpectedResponse
      "We received a binary message, but it is missing the header length."))

/-- The audio.metadata branch of the text path of onmessage: parse the
metadata; a parse failure is caught and pushed onto the queue as an error
item (the drain loop later rethrows it). -/
def handleMetadataMessage (offsetCompensation : Int)
    (entries : List MetadataEntry) : QueueItem :=
  match parseMetadata offsetCompensation entries with
  | .ok c => .chunk c
  | .error e => .err e

/-- Outcome of draining the message queue of one segment: the body breaks
out successfully after close with audio received, throws, or (when the
supplied queue ends without a terminal item) is still waiting for messages. -/
inductive SegmentResult where
  | success (yielded : List BrowserTTSChunk)
  | failure (e : TTSError) (yielded : List BrowserTTSChunk)
  | waiting (yielded : List BrowserTTSChunk)
deriving DecidableEq, Repr

/-- The drain loop at the end of the stream body: pop items in order; close
with no audio received throws NoAudioReceived, close after audio breaks the
loop; an error item is thrown; a chunk is yielded, flipping the
audio-received flag on audio chunks. -/
def drainLoop (items : List QueueItem) (audioWasReceived : Bool)
    (acc : List BrowserTTSChunk) : SegmentResult :=
  match items with
  | [] => .waiting acc
  | .close :: _ =>
    if audioWasReceived then .success acc
    else .failure (.noAudioReceived "No audio was received.") acc
  | .err e :: _ => .failure e acc
  | .chunk c :: rest =>
    drainLoop rest (audioWasReceived || isAudioChunk c) (acc ++ [c])

/-- Result of the whole multi-segment stream: all segments drained, a
terminal error (chunks yielded before it included), or a segment whose
queue ran out without a terminal item. -/
inductive StreamResult where
  | ok (chunks : List BrowserTTSChunk)
  | err (e : TTSError) (chunks : List BrowserTTSChunk)
  | waiting (chunks : List BrowserTTSChunk)
deriving DecidableEq, Repr

/-- Prefix previously yielded chunks onto a stream result. -/
def prependChunks (pre : List BrowserTTSChunk) : StreamResult → StreamResult
  | .ok cs => .ok (pre ++ cs)
  | .err e cs => .err e (pre ++ cs)
  | .waiting cs => .waiting (pre ++ cs)

/-- The for loop of stream: segments are processed strictly in order, each
modelled by the queue items its connection produced; a segment failure
aborts the whole stream, a success passes control to the next segment. -/
def streamSegments : List (List QueueItem) → StreamResult
  | [] => .ok []
  | items :: restSegs =>
    match drainLoop items false [] with
    | .success ys => prependChunks ys (streamSegments restSegs)
    | .failure e ys => .err e ys
    | .waiting ys => .waiting ys

/-- The public entry point stream: a second call (streamWasCalled already
true) throws before the segment loop, hence before any connection is opened
or any message sent.  The returned triple is the result, the new
streamWasCalled flag, and the number of websocket send calls performed (the
body sends exactly two messages, speech.config and the SSML request, per
segment connection). -/
def streamOnce (streamWasCalled : Bool) (segs : List (List QueueItem)) :
    Except TTSError StreamResult × Bool × Nat :=
  if streamWasCalled then
    (.error (.plainError "stream can only be called once."), streamWasCalled, 0)
  else
    (.ok (streamSegments segs), true, 2 * segs.length)

/-! ## The connection retry loop (connectWebSocket) -/

/-- The retry cap hard-coded in connectWebSocket. -/
def maxRetries : Nat := 3

/-- A trace of one connectWebSocket call: how many socket-open attempts ran,
the backoff waits slept between attempts, the total elapsed model time
(attempt durations plus waits), and the outcome. -/
structure ConnectTrace where
  attempts : Nat
  delays : List Nat
  elapsed : Nat
  result : Except TTSError Unit
deriving DecidableEq, Repr

/-- The for loop of connectWebSocket, modelled over an environment giving
each attempt its outcome and its duration (the connect timeout when the
attempt times out).  A failed attempt with attempt < maxRetries sleeps
2 ^ (attempt - 1) * 1000 ms; exhausting all attempts raises the final
WebSocketError. -/
def connectLoop (outcome : Nat → Bool) (duration : Nat → Nat)
    (attempt : Nat) : Nat → ConnectTrace
  | 0 =>
    { attempts := 0, delays := [], elapsed := 0,
      result := .error (.webSocketError
        "Failed to connect to TTS service after multiple attempts. The Microsoft Server Speech Text to Speech Voice is currently unavailable. Please try again later.") }
  | remaining + 1 =>
    if outcome attempt then
      { attempts := 1, delays := [], elapsed := duration attempt,
        result := .ok () }
    else
      let wait := if attempt < maxRetries then [2 ^ (attempt - 1) * 1000] else []
      let rest := connectLoop outcome duration (attempt + 1) remaining
      { attempts := rest.attempts + 1, delays := wait ++ rest.delays,
        elapsed := duration attempt + wait.sum + rest.elapsed,
        result := rest.result }

/-- connectWebSocket: attempts run from 1 to maxRetries. -/
def connectWebSocket (outcome : Nat → Bool) (duration : Nat → Nat) :
    ConnectTrace :=
  connectLoop outcome duration 1 maxRetries

/-! ## The playback buffer (TTSPlayer.appendNextChunk) -/

/-- The pieces of TTSPlayer state touched by appendNextChunk: the pending
chunk queue, the SourceBuffer busy flag, the first-chunk flag, the active
flag of the TTS instance, and whether the MediaSource is open (with a
SourceBuffer attached). -/
structure PlayerState where
  chunks : List (List Nat)
  updating : Bool
  isFirstChunk : Bool
  isActive : Bool
  sourceOpen : Bool
deriving DecidableEq, Repr

/-- appendNextChunk, parameterized by which chunks make
SourceBuffer.appendBuffer throw.  Returns the new state and the chunk
handed to the sink (none when nothing was appended).  On a successful
append the head chunk moves to the sink and the sink becomes busy.  On a
throw, the head chunk was already shifted off before the call, and the
catch block runs a second chunks.shift(), discarding the next queued chunk
as well. -/
def appendNextChunk (appendThrows : List Nat → Bool) (st : PlayerState) :
    PlayerState × Option (List Nat) :=
  if !st.isActive || !st.sourceOpen then (st, none)
  else if 0 < st.chunks.length && !st.updating then
    match st.chunks with
    | [] => (st, none)
    | c :: rest =>
      if appendThrows c then
        ({ st with chunks := rest.drop 1 }, none)
      else
        ({ st with chunks := rest, updating := true, isFirstChunk := false },
          some c)
  else (st, none)

/-! ## Vocabulary for the segmentation claim -/

/-- ASCII whitespace at byte level (the bytes whose characters the JS trim
removes; the non-ASCII members of that set have no single-byte encoding). -/
def wsByte (b : Nat) : Bool :=
  b = 32 || b = 9 || b = 10 || b = 13 || b = 11 || b = 12

/-- Byte-level counterpart of the trim applied to each chunk. -/
def byteTrim (l : List Nat) : List Nat :=
  ((l.dropWhile wsByte).reverse.dropWhile wsByte).reverse

/-- Join chunks, placing the given separator between consecutive chunks
(used to state the reconstruction half of the segmentation claim: the spec
allows one collapsed boundary whitespace character per split). -/
def joinWithSeps : List (List Nat) → List (List Nat) → List Nat
  | [], _ => []
  | [c], _ => c
  | c :: cs, s :: ss => c ++ s ++ joinWithSeps cs ss
  | c :: cs, [] => c ++ joinWithSeps cs []

/-- The segmentation claim as stated: every chunk is non-empty with encoded
length at most the budget, and the chunks, re-joined with at most one
whitespace character per split, reconstruct the trimmed original text. -/
def segmenterClaim (text : List Char) (byteLength : Nat) : Prop :=
  ∀ chunks, browserSplitTextByByteLength text byteLength = .ok chunks →
    (∀ ch ∈ chunks, ch ≠ [] ∧ ch.length ≤ byteLength) ∧
    ∃ seps : List (List Nat), seps.length = chunks.length - 1 ∧
      (∀ s ∈ seps, s.length ≤ 1 ∧ ∀ b ∈ s, wsByte b = true) ∧
      joinWithSeps chunks seps = utf8Encode (jsTrim text)

/-! ## ASCII facts about the codec -/

theorem char_toNat_ofNat_ascii {b : Nat} (h : b < 128) :
    (Char.ofNat b).toNat = b := by
  have key : ∀ x : Fin 128, (Char.ofNat x.val).toNat = x.val := by decide
  exact key ⟨b, h⟩

theorem jsWhitespace_ofNat_ascii {b : Nat} (h : b < 128) :
    jsWhitespace (Char.ofNat b) = wsByte b := by
  have key : ∀ x : Fin 128, jsWhitespace (Char.ofNat x.val) = wsByte x.val := by
    decide
  exact key ⟨b, h⟩

theorem utf8Decode_ascii {l : List Nat} (h : ∀ b ∈ l, b < 128) :
    utf8Decode l = l.map Char.ofNat := by
  induction l with
  | nil => rfl
  | cons b rest ih =>
    have hb : b < 128 := h b (List.mem_cons_self b rest)
    have hrest : ∀ x ∈ rest, x < 128 := fun x hx => h x (List.mem_cons_of_mem b hx)
    rw [utf8Decode.eq_def]
    simp [hb, ih hrest]

theorem utf8EncodeChar_ascii {c : Char} (h : c.toNat < 128) :
    utf8EncodeChar c = [c.toNat] := by
  simp [utf8EncodeChar, h]

theorem utf8Encode_ascii {s : List Char} (h : ∀ c ∈ s, c.toNat < 128) :
    utf8Encode s = s.map Char.toNat := by
  induction s with
  | nil => rfl
  | cons c rest ih =>
    have hc : c.toNat < 128 := h c (List.mem_cons_self c rest)
    have hrest : ∀ x ∈ rest, x.toNat < 128 :=
      fun x hx => h x (List.mem_cons_of_mem c hx)
    simp [utf8Encode, utf8EncodeChar_ascii hc] at ih ⊢
    exact ih hrest

theorem utf8Encode_utf8Decode_ascii {l : List Nat} (h : ∀ b ∈ l, b < 128) :
    utf8Encode (utf8Decode l) = l := by
  rw [utf8Decode_ascii h, utf8Encode_ascii, List.map_map]
  · have : ∀ b ∈ l, (Char.toNat ∘ Char.ofNat) b = id b := by
      intro b hb
      simpa using char_toNat_ofNat_ascii (h b hb)
    rw [List.map_congr_left this, List.map_id]
  · intro c hc
    rcases List.mem_map.1 hc with ⟨b, hb, rfl⟩
    rw [char_toNat_ofNat_ascii (h b hb)]
    exact h b hb

theorem one_le_length_utf8EncodeChar (c : Char) :
    1 ≤ (utf8EncodeChar c).length := by
  by_cases h1 : c.toNat < 128 <;> by_cases h2 : c.toNat < 2048 <;>
    by_cases h3 : c.toNat < 65536 <;> simp [utf8EncodeChar, h1, h2, h3]

theorem length_le_length_utf8Encode (s : List Char) :
    s.length ≤ (utf8Encode s).length := by
  induction s with
  | nil => simp [utf8Encode]
  | cons c rest ih =>
    have := one_le_length_utf8EncodeChar c
    simp only [utf8Encode, List.map_cons, List.flatten_cons, List.length_append,
      List.length_cons] at ih ⊢
    omega

/-! ## Byte-level facts about trimming and the split position -/

theorem dropWhile_congr_mem {α : Type} {p q : α → Bool} :
    ∀ {l : List α}, (∀ x ∈ l, p x = q x) → l.dropWhile p = l.dropWhile q
  | [], _ => rfl
  | a :: l, h => by
    have ha : p a = q a := h a (List.mem_cons_self a l)
    have hl : ∀ x ∈ l, p x = q x := fun x hx => h x (List.mem_cons_of_mem a hx)
    simp only [List.dropWhile_cons, ha]
    split <;> simp [dropWhile_congr_mem hl]

theorem byteTrim_sublist (l : List Nat) : (byteTrim l).Sublist l := by
  have h1 : (byteTrim l).Sublist (l.dropWhile wsByte).reverse.reverse := by
    unfold byteTrim
    rw [List.reverse_sublist]
    exact List.dropWhile_sublist wsByte
  rw [List.reverse_reverse] at h1
  exact h1.trans (List.dropWhile_sublist wsByte)

theorem filter_nonWs_dropWhile (l : List Nat) :
    (l.dropWhile wsByte).filter (fun b => !wsByte b) =
      l.filter (fun b => !wsByte b) := by
  induction l with
  | nil => rfl
  | cons b rest ih =>
    by_cases hb : wsByte b
    · simp [List.dropWhile_cons, hb, ih]
    · simp [List.dropWhile_cons, hb]

theorem filter_nonWs_byteTrim (l : List Nat) :
    (byteTrim l).filter (fun b => !wsByte b) =
      l.filter (fun b => !wsByte b) := by
  unfold byteTrim
  rw [List.filter_reverse, filter_nonWs_dropWhile, List.filter_reverse,
    List.reverse_reverse, filter_nonWs_dropWhile]

theorem jsTrim_map_ofNat_ascii {l : List Nat} (h : ∀ b ∈ l, b < 128) :
    jsTrim (l.map Char.ofNat) = (byteTrim l).map Char.ofNat := by
  have corr : ∀ {m : List Nat}, (∀ b ∈ m, b < 128) →
      (m.map Char.ofNat).dropWhile jsWhitespace =
        (m.dropWhile wsByte).map Char.ofNat := by
    intro m hm
    rw [List.dropWhile_map]
    refine congrArg _ (dropWhile_congr_mem ?_)
    intro x hx
    exact jsWhitespace_ofNat_ascii (hm x hx)
  have h1 : ∀ b ∈ l.dropWhile wsByte, b < 128 :=
    fun b hb => h b ((List.dropWhile_sublist wsByte).mem hb)
  have h2 : ∀ b ∈ (l.dropWhile wsByte).reverse, b < 128 := by
    intro b hb
    exact h1 b (List.mem_reverse.1 hb)
  unfold jsTrim
  rw [corr h, ← List.map_reverse, corr h2, ← List.map_reverse]
  rfl

theorem trim_decode_encode_ascii {l : List Nat} (h : ∀ b ∈ l, b < 128) :
    utf8Encode (jsTrim (utf8Decode l)) = byteTrim l := by
  have hbt : ∀ b ∈ byteTrim l, b < 128 :=
    fun b hb => h b ((byteTrim_sublist l).mem hb)
  rw [utf8Decode_ascii h, jsTrim_map_ofNat_ascii h, ← utf8Decode_ascii hbt,
    utf8Encode_utf8Decode_ascii hbt]

theorem jsLastIndexOf_pos_bounds {s : List Char} {c : Char}
    (h : 0 < jsLastIndexOf s c) :
    1 ≤ (jsLastIndexOf s c).toNat ∧ (jsLastIndexOf s c).toNat < s.length := by
  unfold jsLastIndexOf at h ⊢
  rcases heq : s.reverse.findIdx? (· = c) with _ | j <;>
    simp only [heq] at h ⊢ <;> omega

theorem splitTextChunk_ascii_bounds {B : Nat} (hB : 0 < B)
    {buffer : List Nat} (h : ∀ b ∈ buffer, b < 128) :
    0 < splitTextChunk B buffer ∧ splitTextChunk B buffer ≤ B := by
  have hslice : ∀ b ∈ buffer.take B, b < 128 :=
    fun b hb => h b (List.mem_of_mem_take hb)
  have hlen : (utf8Decode (buffer.take B)).length = (buffer.take B).length := by
    rw [utf8Decode_ascii hslice, List.length_map]
  have htake : ∀ i : Nat,
      (utf8Encode ((utf8Decode (buffer.take B)).take i)).length =
        min i (utf8Decode (buffer.take B)).length := by
    intro i
    have hmem : ∀ ch ∈ (utf8Decode (buffer.take B)).take i, ch.toNat < 128 := by
      intro ch hch
      have hch2 : ch ∈ utf8Decode (buffer.take B) := List.mem_of_mem_take hch
      rw [utf8Decode_ascii hslice] at hch2
      rcases List.mem_map.1 hch2 with ⟨b, hb, rfl⟩
      rw [char_toNat_ofNat_ascii (hslice b hb)]
      exact hslice b hb
    rw [utf8Encode_ascii hmem, List.length_map, List.length_take]
  have hsliceB : (buffer.take B).length ≤ B := by
    simp [List.length_take]
  simp only [splitTextChunk]
  split_ifs with hnl hsp
  · rcases jsLastIndexOf_pos_bounds hnl with ⟨h1, h2⟩
    rw [htake]
    omega
  · rcases jsLastIndexOf_pos_bounds hsp with ⟨h1, h2⟩
    rw [htake]
    omega
  · exact ⟨hB, le_refl B⟩

theorem splitLoop_ascii_spec (B : Nat) (hB : 0 < B) :
    ∀ (fuel : Nat) (buffer : List Nat), buffer.length < fuel →
      (∀ b ∈ buffer, b < 128) →
      (∀ ch ∈ splitLoop B fuel buffer, ch ≠ [] ∧ ch.length ≤ B) ∧
      ((splitLoop B fuel buffer).flatten).Sublist buffer ∧
      ((splitLoop B fuel buffer).flatten).filter (fun b => !wsByte b) =
        buffer.filter (fun b => !wsByte b) := by
  intro fuel
  induction fuel with
  | zero => intro buffer hlt _; omega
  | succ fuel ih =>
    intro buffer hlt hascii
    by_cases hgt : B < buffer.length
    · have hbounds := splitTextChunk_ascii_bounds hB hascii
      set s := splitTextChunk B buffer with hs_def
      have htake_ascii : ∀ b ∈ buffer.take s, b < 128 :=
        fun b hb => hascii b (List.mem_of_mem_take hb)
      have hdrop_ascii : ∀ b ∈ buffer.drop s, b < 128 :=
        fun b hb => hascii b (List.mem_of_mem_drop hb)
      have hdlt : (buffer.drop s).length < fuel := by
        rw [List.length_drop]
        omega
      obtain ⟨IH1, IH2, IH3⟩ := ih (buffer.drop s) hdlt hdrop_ascii
      have htrim : utf8Encode (jsTrim (utf8Decode (buffer.take s))) =
          byteTrim (buffer.take s) := trim_decode_encode_ascii htake_ascii
      have hfilter_take : (buffer.take s).filter (fun b => !wsByte b) =
          (byteTrim (buffer.take s)).filter (fun b => !wsByte b) :=
        (filter_nonWs_byteTrim (buffer.take s)).symm
      have hbuffer_split : buffer.take s ++ buffer.drop s = buffer :=
        List.take_append_drop s buffer
      simp only [splitLoop]
      rw [if_pos hgt]
      by_cases hempty : (jsTrim (utf8Decode (buffer.take s))).isEmpty
      · rw [if_pos hempty]
        have hbt_nil : byteTrim (buffer.take s) = [] := by
          rw [← htrim]
          rw [List.isEmpty_eq_true] at hempty
          rw [hempty]
          rfl
        refine ⟨IH1, IH2.trans (List.drop_sublist s buffer), ?_⟩
        conv_rhs => rw [← hbuffer_split]
        rw [List.filter_append, hfilter_take, hbt_nil]
        simpa using IH3
      · rw [if_neg hempty]
        rw [htrim]
        have hbt_ne : byteTrim (buffer.take s) ≠ [] := by
          intro hnil
          rw [List.isEmpty_eq_true] at hempty
          apply hempty
          have hlen := length_le_length_utf8Encode
            (jsTrim (utf8Decode (buffer.take s)))
          rw [htrim, hnil] at hlen
          simp at hlen
          exact hlen
        refine ⟨?_, ?_, ?_⟩
        · intro ch hch
          rcases List.mem_cons.1 hch with rfl | hch2
          · refine ⟨hbt_ne, ?_⟩
            have h1 := (byteTrim_sublist (buffer.take s)).length_le
            have h2 : (buffer.take s).length ≤ s := by
              rw [List.length_take]
              omega
            omega
          · exact IH1 ch hch2
        · rw [List.flatten_cons]
          conv_rhs => rw [← hbuffer_split]
          exact (byteTrim_sublist (buffer.take s)).append IH2
        · rw [List.flatten_cons, List.filter_append, IH3,
            filter_nonWs_byteTrim]
          conv_rhs => rw [← hbuffer_split]
          rw [List.filter_append]
    · have htrim : utf8Encode (jsTrim (utf8Decode buffer)) = byteTrim buffer :=
        trim_decode_encode_ascii hascii
      simp only [splitLoop]
      rw [if_neg hgt]
      by_cases hempty : (jsTrim (utf8Decode buffer)).isEmpty
      · rw [if_pos hempty]
        have hbt_nil : byteTrim buffer = [] := by
          rw [← htrim]
          rw [List.isEmpty_eq_true] at hempty
          rw [hempty]
          rfl
        refine ⟨by simp, List.nil_sublist buffer, ?_⟩
        have := filter_nonWs_byteTrim buffer
        rw [hbt_nil] at this
        simpa using this.symm
      · rw [if_neg hempty]
        rw [htrim]
        have hbt_ne : byteTrim buffer ≠ [] := by
          intro hnil
          rw [List.isEmpty_eq_true] at hempty
          apply hempty
          have hlen := length_le_length_utf8Encode (jsTrim (utf8Decode buffer))
          rw [htrim, hnil] at hlen
          simp at hlen
          exact hlen
        refine ⟨?_, ?_, ?_⟩
        · intro ch hch
          rcases List.mem_cons.1 hch with rfl | hch2
          · refine ⟨hbt_ne, ?_⟩
            have h1 := (byteTrim_sublist buffer).length_le
            omega
          · simp at hch2
        · simpa using byteTrim_sublist buffer
        · simpa using filter_nonWs_byteTrim buffer

/-! ## Helper lemmas about the offset state and the drain loop -/

theorem stepTurn_invariant {st : CommState}
    (h : st.offsetCompensation ≤ st.lastDurationOffset) {e : TurnEvent}
    (hv : validTurnEvent e) :
    st.offsetCompensation ≤ (stepTurn st e).offsetCompensation ∧
    (stepTurn st e).offsetCompensation ≤ (stepTurn st e).lastDurationOffset := by
  cases e with
  | metadata off dur =>
    rcases hv with ⟨h1, h2⟩
    refine ⟨le_refl _, ?_⟩
    show st.offsetCompensation ≤ off + st.offsetCompensation + dur
    omega
  | turnEnd => exact ⟨h, le_refl _⟩
  | other => exact ⟨le_refl _, h⟩

theorem runTurns_invariant (es : List TurnEvent) :
    ∀ st : CommState, st.offsetCompensation ≤ st.lastDurationOffset →
      (∀ e ∈ es, validTurnEvent e) →
      st.offsetCompensation ≤ (runTurns st es).offsetCompensation ∧
      (runTurns st es).offsetCompensation ≤
        (runTurns st es).lastDurationOffset := by
  induction es with
  | nil =>
    intro st h _
    exact ⟨le_refl _, h⟩
  | cons e es ih =>
    intro st h hv
    have hstep := stepTurn_invariant h (hv e (List.mem_cons_self e es))
    have hrest := ih (stepTurn st e) hstep.2
      (fun x hx => hv x (List.mem_cons_of_mem e hx))
    exact ⟨hstep.1.trans hrest.1, hrest.2⟩

theorem drainLoop_chunks_close (pre : List BrowserTTSChunk) :
    ∀ (b : Bool) (acc : List BrowserTTSChunk),
      drainLoop (pre.map QueueItem.chunk ++ [QueueItem.close]) b acc =
        if b || pre.any isAudioChunk then .success (acc ++ pre)
        else .failure (.noAudioReceived "No audio was received.") (acc ++ pre) := by
  induction pre with
  | nil =>
    intro b acc
    by_cases hb : b <;> simp [drainLoop, hb]
  | cons c cs ih =>
    intro b acc
    simp only [List.map_cons, List.cons_append, drainLoop, List.any_cons,
      List.append_eq]
    rw [ih]
    by_cases hb : b <;> by_cases hc : isAudioChunk c <;>
      simp [hb, hc, Bool.or_assoc]

theorem drainLoop_error_item (pre : List BrowserTTSChunk) (e : TTSError)
    (post : List QueueItem) :
    ∀ (b : Bool) (acc : List BrowserTTSChunk),
      drainLoop (pre.map QueueItem.chunk ++ QueueItem.err e :: post) b acc =
        .failure e (acc ++ pre) := by
  induction pre with
  | nil =>
    intro b acc
    simp [drainLoop]
  | cons c cs ih =>
    intro b acc
    simp only [List.map_cons, List.cons_append, drainLoop, List.append_eq]
    rw [ih]
    simp

/-! ## Claim C1 -/

/-- C1 counterexample: on turn.end the source assigns
offsetCompensation := lastDurationOffset rather than adding; after the
event sequence [Metadata(offset 0, duration 10), TurnEnd, TurnEnd] the
offset compensation is 10, while the sum of the lastDurationOffset values
at the two TurnEnds (the value the claim predicts) is 20. -/
theorem turnEnd_assignment_counterexample :
    (runTurns initCommState
      [TurnEvent.metadata 0 10, TurnEvent.turnEnd,
        TurnEvent.turnEnd]).offsetCompensation = 10 ∧
    (turnEndContributions initCommState
      [TurnEvent.metadata 0 10, TurnEvent.turnEnd,
        TurnEvent.turnEnd]).sum = 20 ∧
    (10 : Int) ≠ 20 := by
  refine ⟨by decide, by decide, by decide⟩

/-- C1 amended: at each TurnEnd the orchestrator overwrites
offsetCompensation with lastDurationOffset (assignment, not +=); hence
after any event sequence offsetCompensation equals the lastDurationOffset
value observed at the most recent TurnEnd (its previous value if no
TurnEnd occurred).  The accumulation across segments happens instead
because each Metadata event folds the current offsetCompensation into
lastDurationOffset. -/
theorem turnEnd_assignment_amended (st : CommState) (es : List TurnEvent) :
    stepTurn st TurnEvent.turnEnd =
      { st with offsetCompensation := st.lastDurationOffset } ∧
    (runTurns st es).offsetCompensation =
      (turnEndContributions st es).foldl (fun _ v => v)
        st.offsetCompensation := by
  refine ⟨rfl, ?_⟩
  induction es generalizing st with
  | nil => rfl
  | cons e es ih =>
    cases e with
    | metadata off dur =>
      simpa [runTurns, turnEndContributions, stepTurn] using ih _
    | turnEnd =>
      simpa [runTurns, turnEndContributions, stepTurn] using ih _
    | other =>
      simpa [runTurns, turnEndContributions, stepTurn] using ih _

/-! ## Claim C9 -/

/-- C9: assuming every metadata entry carries non-negative Offset and
Duration, offsetCompensation never decreases: after any prefix of valid
inbound messages, handling one more valid message leaves it unchanged or
increases it. -/
theorem offsetCompensation_monotone (es : List TurnEvent) (e : TurnEvent)
    (hv : ∀ x ∈ es, validTurnEvent x) (hve : validTurnEvent e) :
    (runTurns initCommState es).offsetCompensation ≤
      (stepTurn (runTurns initCommState es) e).offsetCompensation := by
  have hinv := runTurns_invariant es initCommState (le_refl 0) hv
  exact (stepTurn_invariant hinv.2 hve).1

/-- Witness for C9 at the concrete trace [Metadata(1, 2)] followed by a
TurnEnd. -/
theorem offsetCompensation_monotone_witness :
    (runTurns initCommState [TurnEvent.metadata 1 2]).offsetCompensation ≤
      (stepTurn (runTurns initCommState [TurnEvent.metadata 1 2])
        TurnEvent.turnEnd).offsetCompensation :=
  offsetCompensation_monotone [TurnEvent.metadata 1 2] TurnEvent.turnEnd
    (by decide) (by decide)

/-! ## Claim C4 -/

/-- C4: a segment whose connection closes after zero Audio events fails
the stream with NoAudioReceived; one that closes after at least one Audio
event succeeds, and the orchestrator proceeds to the remaining segments
(finishing if none remain). -/
theorem segment_close_outcome (pre : List BrowserTTSChunk)
    (restSegs : List (List QueueItem)) :
    streamSegments ((pre.map QueueItem.chunk ++ [QueueItem.close]) :: restSegs) =
      if pre.any isAudioChunk then
        prependChunks pre (streamSegments restSegs)
      else .err (.noAudioReceived "No audio was received.") pre := by
  simp only [streamSegments]
  rw [drainLoop_chunks_close pre false []]
  by_cases h : pre.any isAudioChunk <;> simp [h]

/-! ## Claim C5 -/

/-- C5: invoking stream a second time on the same instance
(streamWasCalled already true) fails with the once-only error (the spec's
ProtocolMisuse) and performs zero websocket sends, whatever segments the
input would have produced. -/
theorem stream_second_call_rejected (segs : List (List QueueItem)) :
    streamOnce true segs =
      (.error (.plainError "stream can only be called once."), true, 0) := rfl

/-! ## Claim C6 -/

/-- C6 counterexample: with every attempt failing (each taking its 100 ms
connect timeout), the backoff waits actually slept are [1000, 2000] ms, not
the 1 s / 2 s / 4 s schedule the claim states: no wait follows the third
and final attempt, so the 4 s delay never occurs.  The total elapsed time
is 100 + 1000 + 100 + 2000 + 100 = 3300 ms, matching the claimed total,
which is itself consistent only with the two-delay schedule. -/
theorem connect_backoff_counterexample :
    (connectWebSocket (fun _ => false) (fun _ => 100)).delays = [1000, 2000] ∧
    (connectWebSocket (fun _ => false) (fun _ => 100)).delays ≠
      [1000, 2000, 4000] ∧
    (connectWebSocket (fun _ => false) (fun _ => 100)).elapsed = 3300 := by
  refine ⟨by decide, by decide, by decide⟩

/-- C6 amended: connection establishment attempts the socket open at most
3 times; between the three attempts the backoff waits are 1 s and 2 s (the
2 ^ (attempt-1) second schedule, with no wait after the final attempt, so
a 4 s delay is never slept); when all three attempts fail the caller gets
the ConnectionError describing the service as unavailable, after total
time duration(1) + 1000 + duration(2) + 2000 + duration(3) — which is
100 + 1000 + 100 + 2000 + 100 = 3300 ms when each attempt consumes the
100 ms connect timeout. -/
theorem connect_retry_amended (outcome : Nat → Bool) (duration : Nat → Nat) :
    (connectWebSocket outcome duration).attempts ≤ 3 ∧
    ((outcome 1 = false ∧ outcome 2 = false ∧ outcome 3 = false) →
      connectWebSocket outcome duration =
        { attempts := 3, delays := [1000, 2000],
          elapsed := duration 1 + 1000 + duration 2 + 2000 + duration 3,
          result := .error (.webSocketError
            "Failed to connect to TTS service after multiple attempts. The Microsoft Server Speech Text to Speech Voice is currently unavailable. Please try again later.") }) := by
  constructor
  · by_cases h1 : outcome 1 <;> by_cases h2 : outcome 2 <;>
      by_cases h3 : outcome 3 <;>
        simp [connectWebSocket, connectLoop, maxRetries, h1, h2, h3]
  · rintro ⟨h1, h2, h3⟩
    simp only [connectWebSocket, connectLoop, maxRetries, h1, h2, h3]
    norm_num [ConnectTrace.mk.injEq]
    omega

/-- Witness for C6: the all-fail scenario with a 100 ms connect timeout. -/
theorem connect_retry_amended_witness :
    connectWebSocket (fun _ => false) (fun _ => 100) =
      { attempts := 3, delays := [1000, 2000], elapsed := 3300,
        result := .error (.webSocketError
          "Failed to connect to TTS service after multiple attempts. The Microsoft Server Speech Text to Speech Voice is currently unavailable. Please try again later.") } := by
  have h := (connect_retry_amended (fun _ => false) (fun _ => 100)).2
    ⟨rfl, rfl, rfl⟩
  simpa using h

/-! ## Claim C7 -/

/-- C7: for a binary frame whose Path header is audio, the payload is
accepted exactly when the (coalesced) Content-Type equals audio/mpeg, has
prefix audio/webm, or is absent (the source coalesces a missing header to
the empty string), and the payload is non-empty; it is rejected with
UnexpectedResponse exactly when the Content-Type is present, matches
neither codec identifier, and the payload is non-empty; an empty payload
is always dropped silently. -/
theorem audio_content_type_validation (headers : List (String × String))
    (payload : List Nat) :
    (payload = [] → validateAudioPayload headers payload = none) ∧
    (validateAudioPayload headers payload = some (.chunk (.audio payload)) ↔
      (((getHeader headers "Content-Type").getD "" = "audio/mpeg" ∨
        jsStartsWith ((getHeader headers "Content-Type").getD "") "audio/webm" ∨
        (getHeader headers "Content-Type").getD "" = "") ∧ payload ≠ [])) ∧
    ((∃ m, validateAudioPayload headers payload =
        some (.err (.unexpectedResponse m))) ↔
      ((getHeader headers "Content-Type").getD "" ≠ "audio/mpeg" ∧
        ¬ jsStartsWith ((getHeader headers "Content-Type").getD "") "audio/webm" ∧
        (getHeader headers "Content-Type").getD "" ≠ "" ∧ payload ≠ [])) := by
  by_cases hmp : (getHeader headers "Content-Type").getD "" = "audio/mpeg" <;>
    by_cases hwb :
      jsStartsWith ((getHeader headers "Content-Type").getD "") "audio/webm" <;>
      by_cases hem : (getHeader headers "Content-Type").getD "" = "" <;>
        rcases payload with _ | ⟨p, ps⟩ <;>
          simp [validateAudioPayload, hmp, hwb, hem]
  -- residual goals sit in the branches where the prefix test is false, so
  -- the equality test against the bare container identifier is false too
  all_goals
    have hne : (getHeader headers "Content-Type").getD "" ≠ "audio/webm" :=
      fun hc => hwb (by rw [hc]; decide)
  all_goals simp [hne]

/-- Witness for C7: an audio/mpeg frame with a one-byte payload is
accepted. -/
theorem audio_content_type_validation_witness :
    validateAudioPayload [("Content-Type", "audio/mpeg")] [5] =
      some (.chunk (.audio [5])) :=
  ((audio_content_type_validation [("Content-Type", "audio/mpeg")] [5]).2.1).mpr
    ⟨Or.inl (by decide), by decide⟩

/-! ## Claim C8 -/

/-- C8 (code bug): when appending the head chunk to the sink throws, the
head chunk was already shifted off the queue, and the catch block runs a
second chunks.shift(); with queue [[1], [2]] and the append of [1]
failing, the code leaves the queue empty — discarding the still-good
chunk [2] as well — where the spec (and the comment in the catch block)
promise that exactly the one bad chunk is dropped, which would leave
[[2]]. -/
theorem append_failure_discards_two :
    (appendNextChunk (fun c => c == [1])
      { chunks := [[1], [2]], updating := false, isFirstChunk := true,
        isActive := true, sourceOpen := true }).1.chunks = [] ∧
    (appendNextChunk (fun c => c == [1])
      { chunks := [[1], [2]], updating := false, isFirstChunk := true,
        isActive := true, sourceOpen := true }).2 = none ∧
    ([] : List (List Nat)) ≠ [[2]] := by
  refine ⟨by decide, by decide, by decide⟩

/-! ## Claim C10 -/

theorem parseMetadata_all_sessionEnd (comp : Int) :
    ∀ entries : List MetadataEntry,
      (∀ x ∈ entries, x = MetadataEntry.sessionEnd) →
      parseMetadata comp entries =
        .error (.unexpectedResponse "No WordBoundary metadata found")
  | [], _ => rfl
  | x :: xs, h => by
    have hx := h x (List.mem_cons_self x xs)
    subst hx
    exact parseMetadata_all_sessionEnd comp xs
      (fun y hy => h y (List.mem_cons_of_mem _ hy))

/-- C10 counterexample: a Metadata array containing a single entry of an
unrecognized type contains no WordBoundary entry, yet parseMetadata throws
UnknownResponse, not the UnexpectedResponse the claim states. -/
theorem metadata_unknown_type_counterexample :
    ([MetadataEntry.other "Foo"].any isWordBoundaryEntry) = false ∧
    parseMetadata 0 [MetadataEntry.other "Foo"] =
      .error (.unknownResponse "Unknown metadata type: Foo") ∧
    ∀ m, parseMetadata 0 [MetadataEntry.other "Foo"] ≠
      .error (.unexpectedResponse m) := by
  refine ⟨rfl, rfl, ?_⟩
  intro m h
  rw [show parseMetadata 0 [MetadataEntry.other "Foo"] =
    .error (.unknownResponse "Unknown metadata type: Foo") from rfl] at h
  exact absurd (Except.error.inj h) (by simp)

/-- C10 amended: an audio.metadata frame whose Metadata array consists
only of SessionEnd entries (in particular, an empty array) makes
parseMetadata throw UnexpectedResponse; the handler catches it and pushes
it onto the queue as an error item, and the drain loop rethrows it,
terminating the whole multi-segment stream (later queue items and later
segments are never processed).  A frame containing an entry of any other
unrecognized type instead fails with UnknownResponse, which is equally
terminal. -/
theorem metadata_no_wordboundary_amended (comp : Int)
    (entries : List MetadataEntry)
    (h : ∀ x ∈ entries, x = MetadataEntry.sessionEnd)
    (pre : List BrowserTTSChunk) (post : List QueueItem)
    (restSegs : List (List QueueItem)) :
    parseMetadata comp entries =
      .error (.unexpectedResponse "No WordBoundary metadata found") ∧
    handleMetadataMessage comp entries =
      .err (.unexpectedResponse "No WordBoundary metadata found") ∧
    streamSegments ((pre.map QueueItem.chunk ++
        handleMetadataMessage comp entries :: post) :: restSegs) =
      .err (.unexpectedResponse "No WordBoundary metadata found") pre := by
  have hp := parseMetadata_all_sessionEnd comp entries h
  have hm : handleMetadataMessage comp entries =
      .err (.unexpectedResponse "No WordBoundary metadata found") := by
    simp [handleMetadataMessage, hp]
  refine ⟨hp, hm, ?_⟩
  rw [hm]
  simp only [streamSegments]
  rw [drainLoop_error_item pre _ post false []]
  simp

/-- Witness for C10 at the concrete frame whose Metadata array is a single
SessionEnd entry. -/
theorem metadata_no_wordboundary_amended_witness :
    parseMetadata 0 [MetadataEntry.sessionEnd] =
      .error (.unexpectedResponse "No WordBoundary metadata found") ∧
    handleMetadataMessage 0 [MetadataEntry.sessionEnd] =
      .err (.unexpectedResponse "No WordBoundary metadata found") ∧
    streamSegments (([] ++
        handleMetadataMessage 0 [MetadataEntry.sessionEnd] :: []) ::
        [[QueueItem.close]]) =
      .err (.unexpectedResponse "No WordBoundary metadata found") [] :=
  metadata_no_wordboundary_amended 0 [MetadataEntry.sessionEnd]
    (by decide) [] [] [[QueueItem.close]]

/-! ## Claim C3 -/

/-- C3 counterexample: for the 4-byte frame [0, 5, 97, 98] the declared
header length 5 satisfies 2 + 5 > 4, yet decoding does not fail: it
returns empty headers and an empty payload. -/
theorem binary_frame_truncated_counterexample :
    2 + 5 > ([0, 5, 97, 98] : List Nat).length ∧
    browserGetHeadersAndDataFromBinary [0, 5, 97, 98] = .ok ([], []) ∧
    ∀ e, browserGetHeadersAndDataFromBinary [0, 5, 97, 98] ≠ .error e := by
  refine ⟨by decide, by decide, ?_⟩
  intro e h
  rw [show browserGetHeadersAndDataFromBinary [0, 5, 97, 98] =
    .ok ([], []) from by decide] at h
  exact Except.noConfusion h

/-- C3 amended: a frame of fewer than 2 bytes makes the decoder fail (and
the stream layer pushes the missing-header-length UnexpectedResponse, the
spec's MalformedFrame); a frame whose declared header length exceeds the
remaining bytes decodes without error to empty headers and an empty
payload, after which the handler rejects it with the path-is-not-audio
UnexpectedResponse because the Path header is absent — that error, once
queued, terminates the stream before any further segment. -/
theorem binary_frame_truncated_amended :
    (∀ bytes : List Nat, bytes.length < 2 →
      browserGetHeadersAndDataFromBinary bytes =
        .error "Message too short to contain header length" ∧
      handleBinaryMessage bytes = some (.err (.unexpectedResponse
        "We received a binary message, but it is missing the header length."))) ∧
    (∀ (b0 b1 : Nat) (rest : List Nat), rest.length < b0 * 256 + b1 →
      browserGetHeadersAndDataFromBinary (b0 :: b1 :: rest) = .ok ([], []) ∧
      handleBinaryMessage (b0 :: b1 :: rest) = some (.err (.unexpectedResponse
        "Received binary message, but the path is not audio.")) ∧
      ∀ (post : List QueueItem) (restSegs : List (List QueueItem)),
        streamSegments ((QueueItem.err (.unexpectedResponse
            "Received binary message, but the path is not audio.") :: post) ::
            restSegs) =
          .err (.unexpectedResponse
            "Received binary message, but the path is not audio.") []) := by
  constructor
  · intro bytes hlen
    rcases bytes with _ | ⟨a, _ | ⟨b, r⟩⟩
    · exact ⟨rfl, rfl⟩
    · exact ⟨rfl, rfl⟩
    · refine absurd hlen ?_
      simp only [List.length_cons]
      omega
  · intro b0 b1 rest hL
    have hdecode : decodeBinaryFrame b0 b1 rest = ([], []) := by
      simp only [decodeBinaryFrame]
      rw [if_neg (by omega), List.drop_eq_nil_of_le (by omega)]
    refine ⟨?_, ?_, ?_⟩
    · show Except.ok (decodeBinaryFrame b0 b1 rest) = .ok ([], [])
      rw [hdecode]
    · simp only [handleBinaryMessage]
      rw [hdecode]
      simp [getHeader]
    · intro post restSegs
      simp [streamSegments, drainLoop]

/-- Witness for C3: the one-byte frame [7] is rejected by the decoder, and
the frame [0, 5, 9, 9] (declared header length 5, only 2 bytes after the
prefix) decodes to empty headers and empty payload. -/
theorem binary_frame_truncated_witness :
    browserGetHeadersAndDataFromBinary [7] =
      .error "Message too short to contain header length" ∧
    browserGetHeadersAndDataFromBinary [0, 5, 9, 9] = .ok ([], []) :=
  ⟨(binary_frame_truncated_amended.1 [7] (by decide)).1,
   (binary_frame_truncated_amended.2 0 5 [9, 9] (by decide)).1⟩

/-! ## Claim C2 -/

/-- C2 counterexample.  Two failures at byte budget 4:
with input "aa   bb" the produced chunks are [aa, bb] while the trimmed
original is the full 7-byte string, so re-inserting at most one whitespace
character at the single split cannot reconstruct it (three spaces were
collapsed); with input "aaaé" the budget-4 slice cuts the two-byte é in
half, the truncated lead byte decodes to the replacement character U+FFFD,
and the yielded chunk re-encodes to 6 bytes, exceeding the budget. -/
theorem segmenter_claim_counterexample :
    ¬ segmenterClaim "aa   bb".toList 4 ∧ ¬ segmenterClaim "aaaé".toList 4 := by
  constructor
  · intro hcl
    obtain ⟨-, seps, hlen, hsep, hjoin⟩ :=
      hcl [[97, 97], [98, 98]] (by decide)
    rcases seps with _ | ⟨s, _ | ⟨s2, ss⟩⟩
    · simp at hlen
    · have hjoin2 : [97, 97] ++ s ++ [98, 98] =
          utf8Encode (jsTrim "aa   bb".toList) := hjoin
      have hslen := (hsep s (List.mem_cons_self s [])).1
      rw [show utf8Encode (jsTrim "aa   bb".toList) =
        [97, 97, 32, 32, 32, 98, 98] from by decide] at hjoin2
      have hlen2 := congrArg List.length hjoin2
      simp [List.length_append] at hlen2
      omega
    · simp at hlen
  · intro hcl
    have h1 := (hcl [[97, 97, 97, 239, 191, 189], [239, 191, 189]]
      (by decide)).1
    have h2 := h1 [97, 97, 97, 239, 191, 189]
      (List.mem_cons_self _ _)
    exact absurd h2.2 (by decide)

/-- C2 amended: for ASCII input text and a positive byte budget, every
chunk yielded by the segmenter is non-empty with length at most the
budget, and the concatenation of the chunks reconstructs the original
text up to removal of whitespace characters only (so the trimmed original
up to whitespace dropped at split boundaries, possibly several characters
per split): the concatenation is a subsequence of the encoded text and
retains exactly its non-whitespace bytes.  The ASCII restriction is
forced by the second counterexample: a budget-boundary cut through a
multi-byte character inflates the chunk past the budget via replacement
characters. -/
theorem segmenter_ascii_amended (text : List Char) (byteLength : Nat)
    (hB : 0 < byteLength) (hA : ∀ c ∈ text, c.toNat < 128)
    (chunks : List (List Nat))
    (hok : browserSplitTextByByteLength text byteLength = .ok chunks) :
    (∀ ch ∈ chunks, ch ≠ [] ∧ ch.length ≤ byteLength) ∧
    (chunks.flatten).Sublist (utf8Encode text) ∧
    (chunks.flatten).filter (fun b => !wsByte b) =
      (utf8Encode text).filter (fun b => !wsByte b) := by
  have hascii : ∀ b ∈ utf8Encode text, b < 128 := by
    intro b hb
    rw [utf8Encode_ascii hA] at hb
    rcases List.mem_map.1 hb with ⟨c, hc, rfl⟩
    exact hA c hc
  have hspec := splitLoop_ascii_spec byteLength hB
    ((utf8Encode text).length + 1) (utf8Encode text) (by omega) hascii
  have hchunks : splitLoop byteLength ((utf8Encode text).length + 1)
      (utf8Encode text) = chunks := by
    unfold browserSplitTextByByteLength at hok
    rw [if_neg (by omega)] at hok
    exact Except.ok.inj hok
  rw [hchunks] at hspec
  exact hspec

/-- Witness for C2 at the ASCII input "ab cd" with byte budget 3, whose
chunks are [ab, cd]. -/
theorem segmenter_ascii_amended_witness :
    (∀ ch ∈ [[97, 98], [99, 100]], ch ≠ [] ∧ ch.length ≤ 3) ∧
    (([[97, 98], [99, 100]] : List (List Nat)).flatten).Sublist
      (utf8Encode "ab cd".toList) ∧
    (([[97, 98], [99, 100]] : List (List Nat)).flatten).filter
        (fun b => !wsByte b) =
      (utf8Encode "ab cd".toList).filter (fun b => !wsByte b) :=
  segmenter_ascii_amended "ab cd".toList 3 (by decide) (by decide)
    [[97, 98], [99, 100]] (by decide)
